import Mathlib

/-!
Shallow embedding of the reservation-dashboard application (src/app.py):
date formatting, establishment identity, the 7-day aggregation window,
the pivot builder, the PAX goal classifier, the goal-save logic and the
upload/session handling.  Python values are modelled as follows: strings
are Lean `String` (operating charwise on `String.data` where Python
operates charwise), integers are `ℤ`, Python `float` arithmetic in the
classifier thresholds is modelled by exact rational arithmetic over `ℚ`
(for the integer PAX values and integer goals involved the two agree),
nullable values are `Option`, and a raised-and-caught exception is an
explicit failure branch.
-/

namespace App

/-- Attainment band of a PAX cell against its goal (`apply_style_pax`,
src/app.py:106-122): ABOVE = green style, NEAR = yellow, BELOW = red,
UNSCORED = no style. The band is derived, never stored. -/
inductive AttainmentBand where
  | ABOVE
  | NEAR
  | BELOW
  | UNSCORED
deriving DecidableEq, Repr

/-- The per-cell classification of `apply_style_pax` (src/app.py:115-121):
with a numeric goal, `goal_val > 0` guards scoring; then
`pax_val >= goal_val * 1.05` is ABOVE, `pax_val >= goal_val * 0.95` is NEAR,
otherwise BELOW.  The float products `goal_val * 1.05` / `goal_val * 0.95`
are modelled exactly as rationals `goal * (105/100)` and `goal * (95/100)`. -/
def classify (pax_val goal_val : ℤ) : AttainmentBand :=
  if 0 < goal_val then
    if (pax_val : ℚ) ≥ (goal_val : ℚ) * (105 / 100) then .ABOVE
    else if (pax_val : ℚ) ≥ (goal_val : ℚ) * (95 / 100) then .NEAR
    else .BELOW
  else .UNSCORED

/-- The goal looked up for a cell may be absent or non-numeric
(`isinstance(goal_val, (int, float))`, src/app.py:115): `none` models a
non-numeric goal value, which is never scored. -/
def classifyCell (pax_val : ℤ) (goal_val : Option ℤ) : AttainmentBand :=
  match goal_val with
  | some g => classify pax_val g
  | none => .UNSCORED

/-- Fixed Monday-first table of Spanish weekday names (src/app.py:12). -/
def SPANISH_DAYS : List String :=
  ["lunes", "martes", "miercoles", "jueves", "viernes", "sabado", "domingo"]

/-- Fixed table of Spanish month names (src/app.py:13-16); the Python dict is
keyed 1..12, modelled as the list entry at index `month - 1`. -/
def SPANISH_MONTHS : List String :=
  ["enero", "febrero", "marzo", "abril", "mayo", "junio",
   "julio", "agosto", "septiembre", "octubre", "noviembre", "diciembre"]

/-- Python `f"{d.day:02d}"`: the day of month zero-padded to two digits
(days of month are 1..31, so at most two digits). -/
def pad2 (n : ℕ) : String := if n < 10 then "0" ++ toString n else toString n

/-- `format_date_es` (src/app.py:18-22): `f"{day}, {d.day:02d} de {month}"`
where `day = SPANISH_DAYS[d.weekday()]` and `month = SPANISH_MONTHS[d.month]`.
A date is represented by its weekday index (`d.weekday()`, Monday-first 0..6),
its day of month and its month index; string concatenation is grouped to the
right (associativity makes the grouping immaterial). -/
def format_date_es (weekday : Fin 7) (day : ℕ) (month : Fin 12) : String :=
  SPANISH_DAYS.get weekday ++ (", " ++ (pad2 day ++ (" de " ++ SPANISH_MONTHS.get month)))

/-- Python `str.strip()` on a character list: whitespace dropped from both
ends. -/
def stripChars (l : List Char) : List Char :=
  ((l.dropWhile Char.isWhitespace).reverse.dropWhile Char.isWhitespace).reverse

/-- `day_from_formatted` (src/app.py:24-26):
`col_label.split(",", 1)[0].strip().lower()`, with strings viewed as their
character lists: the text before the first comma is its longest comma-free
initial segment, then strip and charwise lowercase. -/
def day_from_formatted (col_label : String) : String :=
  String.mk ((stripChars (col_label.data.takeWhile (fun c => c != ','))).map Char.toLower)

/-- One row of `conteo_pax` (src/app.py:149-152): a grouped aggregate for one
(establishment key, formatted date) pair with its reservation count and PAX
sum. -/
structure GroupedRow where
  est : String
  date : String
  rsv : ℤ
  pax : ℤ
deriving DecidableEq, Repr

/-- `pd.DataFrame(0, index=all_establishments, columns=formatted_dates)`
(src/app.py:142-143): one row per establishment of the universe, in order,
each a zero entry per date label. -/
def init_pivot (univ labels : List String) : List (String × List ℤ) :=
  univ.map (fun e => (e, labels.map (fun _ => (0 : ℤ))))

/-- One iteration of the fill loop (src/app.py:154-162):
`if est in pivot.index and date in pivot.columns: pivot.loc[est, date] = val`.
The column guard is the explicit `lbl ∈ labels` test; the row guard is
realized by updating exactly the rows whose key equals `est` (an absent key
matches no row, so the matrix is left unchanged — the grouped row is
dropped). -/
def set_cell (labels : List String) (m : List (String × List ℤ))
    (est lbl : String) (v : ℤ) : List (String × List ℤ) :=
  if lbl ∈ labels then
    m.map (fun r => if r.1 = est then (r.1, r.2.set (List.indexOf lbl labels) v) else r)
  else m

/-- The pivot builder of `create_dashboard` (src/app.py:142-162): both the RSV
and the PAX matrix start as the zero-filled universe × labels grid and are
then filled from the grouped rows. -/
def build_matrices (grouped : List GroupedRow) (univ labels : List String) :
    List (String × List ℤ) × List (String × List ℤ) :=
  (grouped.foldl (fun m g => set_cell labels m g.est g.date g.rsv) (init_pivot univ labels),
   grouped.foldl (fun m g => set_cell labels m g.est g.date g.pax) (init_pivot univ labels))

/-- One uploaded reservation row as seen by the aggregation filter
(src/app.py:131-138): its status string, its reservation date after
`pd.to_datetime(..., errors='coerce')` (a calendar date modelled as a day
number, `none` for NaT/unparseable), and its party size. -/
structure ResRecord where
  status : String
  resDate : Option ℤ
  persons : ℤ
deriving DecidableEq, Repr

/-- The rolling window `[today + timedelta(days=i) for i in range(7)]`
(src/app.py:133): the 7-date window starting today, as day numbers. -/
def date_range (today : ℤ) : List ℤ := (List.range 7).map (fun (i : ℕ) => today + (i : ℤ))

/-- The window filter of `create_dashboard` (src/app.py:136-138):
`df[(df['status'] == 'Asignado') & (df['meta_reservation_date'].dt.date.isin(date_range))]`.
String equality is exact and case-sensitive; a NaT date (`none`) is in no
date list, so the row is excluded. -/
def filter_window (records : List ResRecord) (today : ℤ) : List ResRecord :=
  records.filter (fun r =>
    r.status == "Asignado" &&
      (match r.resDate with
       | some d => decide (d ∈ date_range today)
       | none => false))

/-- The universe merge of `load_and_process_data` (src/app.py:79-80):
`sorted(set(existing) | set(discovered))` — set union, then sorted output. -/
def merge_universe (existing discovered : List String) : List String :=
  (existing.toFinset ∪ discovered.toFinset).sort (· ≤ ·)

/-- Python `str.lower()`: charwise lowercasing. -/
def lowerStr (s : String) : String := String.mk (s.data.map Char.toLower)

/-- One cell of the edited goal grid (src/app.py:206): `num z` is a value
Python `int()` coerces to the integer `z` (an int, or a float whose integer
part is `z`); `invalid` is a value `int()` raises on (non-numeric string,
NaN from an emptied cell, None). -/
inductive CellValue where
  | num (z : ℤ)
  | invalid (s : String)
deriving DecidableEq, Repr

/-- Python `int(cell)` (src/app.py:212): the coerced integer, or `none` when
the coercion raises. -/
def intCoerce : CellValue → Option ℤ
  | .num z => some z
  | .invalid _ => none

/-- The 7 weekday column names of the goal editor (src/app.py:185). -/
def dias_semana_full : List String :=
  ["Lunes", "Martes", "Miercoles", "Jueves", "Viernes", "Sabado", "Domingo"]

/-- The inner dict comprehension of the save loop (src/app.py:212):
`{day.lower(): int(row[day]) for day in dias_semana_full}` over one edited
row, presented as the (weekday column, cell) pairs in column order; any
failing `int()` raises, making the whole row `none`. -/
def row_goals : List (String × CellValue) → Option (List (String × ℤ))
  | [] => some []
  | (day, c) :: rest =>
    match intCoerce c, row_goals rest with
    | some z, some t => some ((lowerStr day, z) :: t)
    | _, _ => none

/-- The outer save loop (src/app.py:210-212): one entry per establishment
row of the edited grid; a raise in any row aborts the whole dictionary. -/
def goals_to_save : List (String × List CellValue) → Option (List (String × List (String × ℤ)))
  | [] => some []
  | (est, cells) :: rest =>
    match row_goals (dias_semana_full.zip cells), goals_to_save rest with
    | some g, some t => some ((est, g) :: t)
    | _, _ => none

/-- The `Guardar Metas` handler (src/app.py:208-216): build the full goal
dictionary, then `goals_ref.set(goals_to_save)` replaces the stored document
wholesale; an exception anywhere is caught, an error is shown and the stored
document is left untouched.  Returns the stored document after the click and
whether the save succeeded. -/
def save_week_goals (edited : List (String × List CellValue))
    (stored : List (String × List (String × ℤ))) :
    List (String × List (String × ℤ)) × Bool :=
  match goals_to_save edited with
  | some g => (g, true)
  | none => (stored, false)

/-- Reference description of a successful save: every cell paired with its
weekday column, keyed by the lowercased column name, valued by its `int()`
coercion. -/
def coerced_doc (edited : List (String × List CellValue)) :
    List (String × List (String × ℤ)) :=
  edited.map (fun p => (p.1,
    (dias_semana_full.zip p.2).map (fun q => (lowerStr q.1, (intCoerce q.2).getD 0))))

/-- The establishment key (src/app.py:75 and 146):
`df['establishment_name'] + ' - ' + df['establishment_branch_address']`. -/
def make_key (name branch : String) : String := name ++ " - " ++ branch

/-- Python `str.strip()` on a string (`df.columns.str.strip()`,
src/app.py:70). -/
def trimStr (s : String) : String := String.mk (stripChars s.data)

/-- Python `str.endswith(suffix)` (src/app.py:62-64), charwise. -/
def endsWithStr (s suffix : String) : Bool := suffix.data.isSuffixOf s.data

/-- The slice of an uploaded pandas dataframe the session logic depends on:
its column names and, per row, the establishment name/branch pair used to
build keys. -/
structure Frame where
  cols : List String
  keyPairs : List (String × String)
deriving DecidableEq, Repr

/-- An uploaded file: its name, and the outcome of decoding it with
`pd.read_csv` / `pd.read_excel` (`none` models a raised decode error — the
tabular decoder itself is an external collaborator). -/
structure UploadedFile where
  name : String
  parse : Option Frame
deriving DecidableEq, Repr

/-- The Streamlit session state touched by the upload path: `st.session_state.df`,
`st.session_state.establecimientos_list` (`none` when the key is absent) and
`st.session_state.uploaded_file_name`. -/
structure SessionState where
  df : Option Frame
  establecimientos_list : Option (List String)
  uploaded_file_name : Option String
deriving DecidableEq, Repr

/-- `load_and_process_data` (src/app.py:59-95): reject unsupported
extensions with an error; a decode exception is caught with an error and
`None` is returned; otherwise strip column names, and when both identity
columns are present merge the discovered establishment keys into the
session universe (creating it if absent), else warn and only ensure the
universe key exists.  Returns the returned dataframe, the new session state
and the user-visible messages. -/
def load_and_process_data (f : UploadedFile) (s : SessionState) :
    Option Frame × SessionState × List String :=
  if endsWithStr f.name ".csv" || endsWithStr f.name ".xlsx" then
    match f.parse with
    | none => (none, s, ["Ocurrió un error al procesar el archivo. Verifica el formato."])
    | some df0 =>
      let df : Frame := { df0 with cols := df0.cols.map trimStr }
      if "establishment_name" ∈ df.cols ∧ "establishment_branch_address" ∈ df.cols then
        let new_estabs := ((df.keyPairs.map (fun p => make_key p.1 p.2)).toFinset).sort (· ≤ ·)
        let s1 :=
          match s.establecimientos_list with
          | some l => { s with establecimientos_list := some (merge_universe l new_estabs) }
          | none => { s with establecimientos_list := some new_estabs }
        (some df, s1, ["Archivo cargado exitosamente."])
      else
        let s1 := if s.establecimientos_list = none then
            { s with establecimientos_list := some [] } else s
        (some df, s1, ["Las columnas 'establishment_name' o 'establishment_branch_address' no se encontraron.",
          "Archivo cargado exitosamente."])
  else (none, s, ["Formato de archivo no soportado. Por favor, sube un archivo .csv o .xlsx."])

/-- The upload branch of page "Análisis de Reservas" (src/app.py:228-232):
when a file is supplied, record its name in the session and assign
`st.session_state.df = load_and_process_data(uploaded_file)` — also when
that call returns `None`. -/
def handle_upload (uploaded : Option UploadedFile) (s : SessionState) :
    SessionState × List String :=
  match uploaded with
  | none => (s, [])
  | some f =>
    let s1 : SessionState := { s with uploaded_file_name := some f.name }
    let r := load_and_process_data f s1
    ({ r.2.1 with df := r.1 }, r.2.2)

/-- The dashboard guard (src/app.py:235): the dashboard is rendered iff the
session dataframe exists and is not `None`. -/
def dashboard_renders (s : SessionState) : Bool := s.df.isSome

/-- The reservation-date column cell of the session-stored table: either the
raw uploaded value or the result of `pd.to_datetime(..., errors='coerce')`
(a day number, `none` for NaT). -/
inductive DateCell where
  | raw (s : String)
  | parsed (d : Option ℤ)
deriving DecidableEq, Repr

/-- One row of the session-stored table as the dashboard reads it: status,
establishment identity, reservation date cell and party size. -/
structure StoredRecord where
  status : String
  estName : String
  branch : String
  date : DateCell
  persons : ℤ
deriving DecidableEq, Repr

/-- `pd.to_datetime(cell, errors='coerce')` on one cell: a raw value is
parsed by the external date parser (unparseable → NaT); an already-parsed
date (or NaT) is returned unchanged. -/
def to_datetime_cell (parseDate : String → Option ℤ) : DateCell → DateCell
  | .raw s => .parsed (parseDate s)
  | .parsed d => .parsed d

/-- The in-place mutation of the session table performed by rendering
(src/app.py:131): the reservation-date column is re-assigned its coerced
value; all other fields are untouched (the later steps work on
`df_filtrado = df[...].copy()` and only read).  Called on
`st.session_state.df` on every render (src/app.py:236). -/
def render_parse_dates (parseDate : String → Option ℤ)
    (table : List StoredRecord) : List StoredRecord :=
  table.map (fun r => { r with date := to_datetime_cell parseDate r.date })

end App

namespace App

/-- C1: the classifier is UNSCORED exactly when the goal is nonpositive (or
non-numeric), ABOVE exactly when `pax ≥ goal * 1.05`, NEAR exactly when
`goal * 0.95 ≤ pax < goal * 1.05`, BELOW exactly when `pax < goal * 0.95`
(positive goal), with both thresholds inclusive; and the spec's boundary
examples hold: classify(105,100)=ABOVE, classify(104,100)=NEAR,
classify(95,100)=NEAR, classify(94,100)=BELOW, classify(50,0)=UNSCORED. -/
theorem classify_bands (pax goal : ℤ) :
    (classify pax goal = .UNSCORED ↔ goal ≤ 0) ∧
    (classify pax goal = .ABOVE ↔ 0 < goal ∧ (goal : ℚ) * (105 / 100) ≤ (pax : ℚ)) ∧
    (classify pax goal = .NEAR ↔
      0 < goal ∧ (goal : ℚ) * (95 / 100) ≤ (pax : ℚ) ∧ (pax : ℚ) < (goal : ℚ) * (105 / 100)) ∧
    (classify pax goal = .BELOW ↔ 0 < goal ∧ (pax : ℚ) < (goal : ℚ) * (95 / 100)) ∧
    (classifyCell pax none = .UNSCORED) ∧
    (classify 105 100 = .ABOVE ∧ classify 104 100 = .NEAR ∧ classify 95 100 = .NEAR ∧
      classify 94 100 = .BELOW ∧ classify 50 0 = .UNSCORED) := by
  refine ⟨?_, ?_, ?_, ?_, rfl, by norm_num [classify], by norm_num [classify],
    by norm_num [classify], by norm_num [classify], by norm_num [classify]⟩ <;>
  · unfold classify
    split_ifs with h1 h2 h3 <;> simp_all <;>
      first
        | omega
        | linarith [show (0 : ℚ) ≤ (goal : ℚ) from by exact_mod_cast h1.le]

/-- Helper for the round-trip: taking the longest comma-free initial segment
of `l ++ "," ++ r` recovers `l` whenever `l` itself is comma-free. -/
theorem takeWhile_append_comma (l r : List Char) (h : l.all (fun c => c != ',') = true) :
    (l ++ ',' :: r).takeWhile (fun c => c != ',') = l := by
  induction l with
  | nil => simp [List.takeWhile_cons]
  | cons c cs ih =>
    simp only [List.all_cons, Bool.and_eq_true] at h
    simp [List.takeWhile_cons, h.1, ih h.2]

/-- C2: for every date (any of the 7 weekday indices, any day of month, any of
the 12 months), extracting the weekday from the formatted label inverts
formatting: `day_from_formatted (format_date_es d)` is the Spanish weekday
name at index `d.weekday()` in the fixed Monday-first table. -/
theorem format_day_roundtrip (w : Fin 7) (day : ℕ) (m : Fin 12) :
    day_from_formatted (format_date_es w day m) = SPANISH_DAYS.get w := by
  unfold day_from_formatted format_date_es
  rw [String.data_append, String.data_append]
  simp only [show (", " : String).data = [',', ' '] from rfl, List.cons_append,
    List.nil_append]
  rw [takeWhile_append_comma]
  · fin_cases w <;> decide
  · fin_cases w <;> decide

/-- `set_cell` never changes the row keys of the matrix. -/
theorem set_cell_fst (labels : List String) (m : List (String × List ℤ))
    (est lbl : String) (v : ℤ) :
    (set_cell labels m est lbl v).map Prod.fst = m.map Prod.fst := by
  unfold set_cell
  split
  · induction m with
    | nil => simp
    | cons a t ih =>
      simp only [List.map_cons, ih]
      split <;> simp
  · rfl

/-- `set_cell` preserves the length of every row. -/
theorem set_cell_lengths (labels : List String) (m : List (String × List ℤ))
    (est lbl : String) (v : ℤ)
    (h : ∀ r ∈ m, (r.2 : List ℤ).length = labels.length) :
    ∀ r ∈ set_cell labels m est lbl v, r.2.length = labels.length := by
  unfold set_cell
  split
  · intro r hr
    simp only [List.mem_map] at hr
    obtain ⟨a, ha, rfl⟩ := hr
    split <;> simp [List.length_set, h a ha]
  · exact h

/-- `set_cell` leaves rows keyed by a different establishment untouched. -/
theorem set_cell_other (labels : List String) (m : List (String × List ℤ))
    (est lbl : String) (v : ℤ) (e : String) (he : e ≠ est) (row : List ℤ)
    (hm : (e, row) ∈ m) : (e, row) ∈ set_cell labels m est lbl v := by
  unfold set_cell
  split
  · refine List.mem_map.mpr ⟨(e, row), hm, ?_⟩
    simp [he]
  · exact hm

/-- Folding the fill loop over any grouped rows never changes the row keys. -/
theorem fold_set_fst (labels : List String) (f : GroupedRow → ℤ)
    (grouped : List GroupedRow) (m : List (String × List ℤ)) :
    ((grouped.foldl (fun m g => set_cell labels m g.est g.date (f g)) m).map Prod.fst)
      = m.map Prod.fst := by
  induction grouped generalizing m with
  | nil => rfl
  | cons g t ih => rw [List.foldl_cons, ih, set_cell_fst]

/-- Folding the fill loop preserves the length of every row. -/
theorem fold_set_lengths (labels : List String) (f : GroupedRow → ℤ)
    (grouped : List GroupedRow) (m : List (String × List ℤ))
    (h : ∀ r ∈ m, (r.2 : List ℤ).length = labels.length) :
    ∀ r ∈ grouped.foldl (fun m g => set_cell labels m g.est g.date (f g)) m,
      r.2.length = labels.length := by
  induction grouped generalizing m with
  | nil => exact h
  | cons g t ih =>
    rw [List.foldl_cons]
    exact ih _ (set_cell_lengths _ _ _ _ _ h)

/-- A row whose establishment appears in no grouped row survives the fill
loop unchanged. -/
theorem fold_set_untouched (labels : List String) (f : GroupedRow → ℤ)
    (grouped : List GroupedRow) (m : List (String × List ℤ)) (e : String) (row : List ℤ)
    (hm : (e, row) ∈ m) (he : ∀ g ∈ grouped, g.est ≠ e) :
    (e, row) ∈ grouped.foldl (fun m g => set_cell labels m g.est g.date (f g)) m := by
  induction grouped generalizing m with
  | nil => exact hm
  | cons g t ih =>
    rw [List.foldl_cons]
    refine ih _ (set_cell_other _ _ _ _ _ _ (fun hc => (he g (by simp)) hc.symm) _ hm) ?_
    intro g' hg'
    exact he g' (by simp [hg'])

/-- C3: for every universe and date window, the RSV and PAX matrices have
exactly the universe as row keys (in order, so exactly `|universe|` rows and
no row for establishments outside the universe — grouped rows for unknown
establishments are silently dropped), every row has one initialized cell per
label, and an establishment of the universe with no grouped record keeps its
all-zero row. -/
theorem build_matrices_shape (grouped : List GroupedRow) (univ labels : List String) :
    ((build_matrices grouped univ labels).1.map Prod.fst = univ) ∧
    ((build_matrices grouped univ labels).2.map Prod.fst = univ) ∧
    (∀ r ∈ (build_matrices grouped univ labels).1, r.2.length = labels.length) ∧
    (∀ r ∈ (build_matrices grouped univ labels).2, r.2.length = labels.length) ∧
    (∀ e ∈ univ, (∀ g ∈ grouped, g.est ≠ e) →
      (e, labels.map fun _ => (0 : ℤ)) ∈ (build_matrices grouped univ labels).1 ∧
      (e, labels.map fun _ => (0 : ℤ)) ∈ (build_matrices grouped univ labels).2) := by
  have hinit_fst : (init_pivot univ labels).map Prod.fst = univ := by
    unfold init_pivot
    rw [List.map_map]
    simp [Function.comp_def]
  have hinit_len : ∀ r ∈ init_pivot univ labels, (r.2 : List ℤ).length = labels.length := by
    intro r hr
    simp only [init_pivot, List.mem_map] at hr
    obtain ⟨e, he, rfl⟩ := hr
    simp
  have hinit_mem : ∀ e ∈ univ, (e, labels.map fun _ => (0 : ℤ)) ∈ init_pivot univ labels := by
    intro e he
    exact List.mem_map.mpr ⟨e, he, rfl⟩
  refine ⟨?_, ?_, ?_, ?_, ?_⟩
  · rw [show (build_matrices grouped univ labels).1 =
      grouped.foldl (fun m g => set_cell labels m g.est g.date g.rsv)
        (init_pivot univ labels) from rfl]
    rw [fold_set_fst, hinit_fst]
  · rw [show (build_matrices grouped univ labels).2 =
      grouped.foldl (fun m g => set_cell labels m g.est g.date g.pax)
        (init_pivot univ labels) from rfl]
    rw [fold_set_fst, hinit_fst]
  · exact fold_set_lengths _ _ _ _ hinit_len
  · exact fold_set_lengths _ _ _ _ hinit_len
  · intro e he hg
    exact ⟨fold_set_untouched _ _ _ _ _ _ (hinit_mem e he) hg,
           fold_set_untouched _ _ _ _ _ _ (hinit_mem e he) hg⟩

/-- C3 witness: on a concrete universe, window and grouped row for another
establishment, the untouched establishment keeps its zero row. -/
theorem build_matrices_shape_witness :
    ("A - B" ∈ ["A - B", "C - D"] ∧
      (∀ g ∈ [GroupedRow.mk "C - D" "lunes, 01 de enero" 1 4], g.est ≠ "A - B")) ∧
    ("A - B", ["lunes, 01 de enero"].map fun _ => (0 : ℤ)) ∈
      (build_matrices [GroupedRow.mk "C - D" "lunes, 01 de enero" 1 4]
        ["A - B", "C - D"] ["lunes, 01 de enero"]).1 :=
  ⟨⟨by decide, by decide⟩,
    ((build_matrices_shape [GroupedRow.mk "C - D" "lunes, 01 de enero" 1 4]
      ["A - B", "C - D"] ["lunes, 01 de enero"]).2.2.2.2 "A - B"
        (by decide) (by decide)).1⟩

/-- C4 counterexample: with previous session data present, uploading a
malformed .csv file (decode raises) makes the upload handler assign the
`None` result to `st.session_state.df`, so session state IS mutated and the
previous dataframe is no longer usable: the dashboard guard flips from
rendering to not rendering. -/
theorem upload_error_clobbers :
    ((handle_upload (some (UploadedFile.mk "r.csv" none))
        (SessionState.mk (some (Frame.mk ["status"] [("A", "B")])) (some ["A - B"]) none)).1.df
      = none) ∧
    dashboard_renders
      (SessionState.mk (some (Frame.mk ["status"] [("A", "B")])) (some ["A - B"]) none) = true ∧
    dashboard_renders
      (handle_upload (some (UploadedFile.mk "r.csv" none))
        (SessionState.mk (some (Frame.mk ["status"] [("A", "B")])) (some ["A - B"]) none)).1
      = false :=
  ⟨by decide, by decide, by decide⟩

/-- C4 (amended): uploading a malformed or unsupported file produces a
user-visible error and leaves the establishment universe unchanged, but the
stored session dataframe is overwritten with the `None` result (and the
uploaded file name is recorded), so the previous dataframe is no longer
rendered by the dashboard. -/
theorem upload_failure_keeps_universe (f : UploadedFile) (s : SessionState)
    (h : f.parse = none ∨
      (endsWithStr f.name ".csv" = false ∧ endsWithStr f.name ".xlsx" = false)) :
    ∃ msgs, msgs ≠ ([] : List String) ∧
      handle_upload (some f) s =
        (SessionState.mk none s.establecimientos_list (some f.name), msgs) := by
  rcases h with hparse | ⟨h1, h2⟩
  · by_cases hext : (endsWithStr f.name ".csv" || endsWithStr f.name ".xlsx") = true
    · refine ⟨["Ocurrió un error al procesar el archivo. Verifica el formato."], by simp, ?_⟩
      simp [handle_upload, load_and_process_data, hext, hparse]
    · simp only [Bool.not_eq_true] at hext
      refine ⟨["Formato de archivo no soportado. Por favor, sube un archivo .csv o .xlsx."],
        by simp, ?_⟩
      simp [handle_upload, load_and_process_data, hext]
  · have hext : (endsWithStr f.name ".csv" || endsWithStr f.name ".xlsx") = false := by
      rw [h1, h2]; rfl
    refine ⟨["Formato de archivo no soportado. Por favor, sube un archivo .csv o .xlsx."],
      by simp, ?_⟩
    simp [handle_upload, load_and_process_data, hext]

/-- C4 witness: a concrete malformed .csv upload on a concrete session. -/
theorem upload_failure_keeps_universe_witness :
    ((UploadedFile.mk "r.csv" none).parse = none ∨
      (endsWithStr "r.csv" ".csv" = false ∧ endsWithStr "r.csv" ".xlsx" = false)) ∧
    ∃ msgs, msgs ≠ ([] : List String) ∧
      handle_upload (some (UploadedFile.mk "r.csv" none))
          (SessionState.mk none (some ["A - B"]) none) =
        (SessionState.mk none (some ["A - B"]) (some "r.csv"), msgs) :=
  ⟨Or.inl rfl,
    upload_failure_keeps_universe (UploadedFile.mk "r.csv" none)
      (SessionState.mk none (some ["A - B"]) none) (Or.inl rfl)⟩

/-- A row with a non-coercible cell aborts the row dictionary. -/
theorem row_goals_none (cells : List (String × CellValue))
    (h : ∃ q ∈ cells, intCoerce q.2 = none) : row_goals cells = none := by
  induction cells with
  | nil => simp at h
  | cons a t ih =>
    obtain ⟨q, hq, hnone⟩ := h
    rcases List.mem_cons.mp hq with rfl | hmem
    · cases q with
      | mk day c =>
        simp only [row_goals]
        rw [hnone]
    · cases a with
      | mk day c =>
        simp only [row_goals]
        rw [ih ⟨q, hmem, hnone⟩]
        cases intCoerce c <;> rfl

/-- A grid with a non-coercible cell aborts the whole goal dictionary. -/
theorem goals_to_save_none (edited : List (String × List CellValue))
    (h : ∃ p ∈ edited, ∃ q ∈ dias_semana_full.zip p.2, intCoerce q.2 = none) :
    goals_to_save edited = none := by
  induction edited with
  | nil => simp at h
  | cons a t ih =>
    obtain ⟨p, hp, hq⟩ := h
    rcases List.mem_cons.mp hp with rfl | hmem
    · cases p with
      | mk est cells =>
        simp only [goals_to_save]
        rw [row_goals_none _ hq]
    · cases a with
      | mk est cells =>
        simp only [goals_to_save]
        rw [ih ⟨p, hmem, hq⟩]
        cases row_goals (dias_semana_full.zip cells) <;> rfl

/-- A row whose cells all coerce yields exactly the coerced row dictionary. -/
theorem row_goals_all_ok (cells : List (String × CellValue))
    (h : ∀ q ∈ cells, (intCoerce q.2).isSome = true) :
    row_goals cells = some (cells.map (fun q => (lowerStr q.1, (intCoerce q.2).getD 0))) := by
  induction cells with
  | nil => rfl
  | cons a t ih =>
    cases a with
    | mk day c =>
      have hc : (intCoerce c).isSome = true := h (day, c) (by simp)
      obtain ⟨z, hz⟩ := Option.isSome_iff_exists.mp hc
      simp only [row_goals]
      rw [hz, ih (fun q hq => h q (by simp [hq]))]
      simp [hz]

/-- A grid whose cells all coerce yields exactly the coerced document. -/
theorem goals_to_save_all_ok (edited : List (String × List CellValue))
    (h : ∀ p ∈ edited, ∀ q ∈ dias_semana_full.zip p.2, (intCoerce q.2).isSome = true) :
    goals_to_save edited = some (coerced_doc edited) := by
  induction edited with
  | nil => rfl
  | cons a t ih =>
    cases a with
    | mk est cells =>
      simp only [goals_to_save]
      rw [row_goals_all_ok _ (h (est, cells) (by simp)),
        ih (fun p hp => h p (by simp [hp]))]
      rfl

/-- C5: an edited grid with a cell that `int()` cannot coerce makes the save
fail as a whole — no partial write, and the stored weekday document is
exactly its pre-edit value. -/
theorem save_week_goals_rejects (edited : List (String × List CellValue))
    (stored : List (String × List (String × ℤ)))
    (h : ∃ p ∈ edited, ∃ q ∈ dias_semana_full.zip p.2, intCoerce q.2 = none) :
    save_week_goals edited stored = (stored, false) := by
  unfold save_week_goals
  rw [goals_to_save_none edited h]

/-- C5 witness: a concrete grid with one non-numeric cell leaves the concrete
stored document unchanged and reports failure. -/
theorem save_week_goals_rejects_witness :
    (∃ p ∈ [("A", [CellValue.invalid "abc", CellValue.num 1, CellValue.num 2,
        CellValue.num 3, CellValue.num 4, CellValue.num 5, CellValue.num 6])],
      ∃ q ∈ dias_semana_full.zip p.2, intCoerce q.2 = none) ∧
    save_week_goals
      [("A", [CellValue.invalid "abc", CellValue.num 1, CellValue.num 2,
        CellValue.num 3, CellValue.num 4, CellValue.num 5, CellValue.num 6])]
      [("A", [("lunes", 9)])] = ([("A", [("lunes", 9)])], false) :=
  ⟨by decide, save_week_goals_rejects _ _ (by decide)⟩

/-- C6 counterexample: a successful save can store a negative goal — the code
coerces with `int(...)`, which accepts negative values, so "every stored goal
value is a non-negative integer" fails: the grid cell -3 is saved as -3. -/
theorem save_week_goals_negative :
    save_week_goals
      [("A", [CellValue.num (-3), CellValue.num 0, CellValue.num 0,
        CellValue.num 0, CellValue.num 0, CellValue.num 0, CellValue.num 0])] []
      = ([("A", [("lunes", -3), ("martes", 0), ("miercoles", 0), ("jueves", 0),
          ("viernes", 0), ("sabado", 0), ("domingo", 0)])], true) ∧ (-3 : ℤ) < 0 :=
  ⟨by decide, by decide⟩

/-- C6 (amended): for every successful save, every stored goal value is the
integer `int()` coercion of its edited cell — an integer, possibly negative —
keyed by the lowercased weekday name for each of the 7 weekdays, replacing
the stored document; a value that cannot be coerced is a hard failure for
the whole save. -/
theorem save_week_goals_values (edited : List (String × List CellValue))
    (stored : List (String × List (String × ℤ))) :
    ((∀ p ∈ edited, ∀ q ∈ dias_semana_full.zip p.2, (intCoerce q.2).isSome = true) →
      save_week_goals edited stored = (coerced_doc edited, true)) ∧
    ((∃ p ∈ edited, ∃ q ∈ dias_semana_full.zip p.2, intCoerce q.2 = none) →
      save_week_goals edited stored = (stored, false)) := by
  constructor
  · intro h
    unfold save_week_goals
    rw [goals_to_save_all_ok edited h]
  · intro h
    unfold save_week_goals
    rw [goals_to_save_none edited h]

/-- C6 witness: a concrete all-numeric grid saves exactly its coerced
document. -/
theorem save_week_goals_values_witness :
    (∀ p ∈ [("A", [CellValue.num 5, CellValue.num 1, CellValue.num 2,
        CellValue.num 3, CellValue.num 4, CellValue.num 6, CellValue.num 7])],
      ∀ q ∈ dias_semana_full.zip p.2, (intCoerce q.2).isSome = true) ∧
    save_week_goals
      [("A", [CellValue.num 5, CellValue.num 1, CellValue.num 2,
        CellValue.num 3, CellValue.num 4, CellValue.num 6, CellValue.num 7])] []
      = (coerced_doc
          [("A", [CellValue.num 5, CellValue.num 1, CellValue.num 2,
            CellValue.num 3, CellValue.num 4, CellValue.num 6, CellValue.num 7])], true) :=
  ⟨by decide,
    (save_week_goals_values _ []).1 (by decide)⟩

/-- Membership in the 7-date window is exactly `today ≤ d ≤ today + 6`. -/
theorem mem_date_range (today d : ℤ) :
    d ∈ date_range today ↔ today ≤ d ∧ d ≤ today + 6 := by
  simp only [date_range, List.mem_map, List.mem_range]
  constructor
  · rintro ⟨i, hi, rfl⟩
    omega
  · rintro ⟨h1, h2⟩
    exact ⟨(d - today).toNat, by omega, by omega⟩

/-- C7: the aggregation window filter keeps exactly the uploaded records with
status exactly "Asignado" (case-sensitive) and a parsed reservation date in
the 7-date window starting today; records with a null/unparseable date are
excluded. -/
theorem filter_window_mem (records : List ResRecord) (today : ℤ) (r : ResRecord) :
    r ∈ filter_window records today ↔
      r ∈ records ∧ r.status = "Asignado" ∧
        ∃ d, r.resDate = some d ∧ today ≤ d ∧ d ≤ today + 6 := by
  unfold filter_window
  rw [List.mem_filter]
  simp only [Bool.and_eq_true, beq_iff_eq]
  constructor
  · rintro ⟨hmem, hstat, hdate⟩
    refine ⟨hmem, hstat, ?_⟩
    cases hr : r.resDate with
    | none => rw [hr] at hdate; simp at hdate
    | some d =>
      rw [hr] at hdate
      simp only [decide_eq_true_eq] at hdate
      exact ⟨d, rfl, (mem_date_range today d).mp hdate⟩
  · rintro ⟨hmem, hstat, d, hd, hwin⟩
    refine ⟨hmem, hstat, ?_⟩
    rw [hd]
    simp only [decide_eq_true_eq]
    exact (mem_date_range today d).mpr hwin

/-- C7 witness: among concrete records, the record with exact status
"Asignado" and date 3 in the window from day 0 is kept. -/
theorem filter_window_mem_witness :
    (ResRecord.mk "Asignado" (some 3) 5) ∈
      filter_window [ResRecord.mk "Asignado" (some 3) 5,
        ResRecord.mk "asignado" (some 3) 5, ResRecord.mk "Asignado" none 5,
        ResRecord.mk "Asignado" (some 9) 5] 0 :=
  (filter_window_mem _ 0 _).mpr ⟨by decide, rfl, 3, rfl, by decide, by decide⟩

/-- C8: merging the universe is set union with sorted output: it keeps every
prior member (never shrinks), re-merging the same discovered set is
idempotent, and the result is the sorted, duplicate-free enumeration of the
union. -/
theorem merge_universe_spec (existing discovered : List String) :
    (∀ x ∈ existing, x ∈ merge_universe existing discovered) ∧
    merge_universe (merge_universe existing discovered) discovered
      = merge_universe existing discovered ∧
    List.Sorted (· ≤ ·) (merge_universe existing discovered) ∧
    (merge_universe existing discovered).Nodup ∧
    (∀ x, x ∈ merge_universe existing discovered ↔ x ∈ existing ∨ x ∈ discovered) := by
  refine ⟨?_, ?_, ?_, ?_, ?_⟩
  · intro x hx
    simp [merge_universe, Finset.mem_sort, List.mem_toFinset, hx]
  · unfold merge_universe
    rw [Finset.sort_toFinset]
    congr 1
    rw [Finset.union_assoc, Finset.union_self]
  · exact Finset.sort_sorted _ _
  · exact Finset.sort_nodup _ _
  · intro x
    simp [merge_universe, Finset.mem_sort, List.mem_toFinset]

/-- C8 witness: a concrete prior member survives a merge. -/
theorem merge_universe_spec_witness :
    "b" ∈ ["b"] ∧ "b" ∈ merge_universe ["b"] ["a"] :=
  ⟨by decide, (merge_universe_spec ["b"] ["a"]).1 "b" (by decide)⟩

/-- C9 counterexample: the composite key is NOT injective on (name, branch)
pairs — the separator can occur inside a name, so two distinct pairs collide:
`make_key "A - B" "C" = make_key "A" "B - C" = "A - B - C"`. -/
theorem make_key_collision :
    make_key "A - B" "C" = make_key "A" "B - C" ∧
    ("A - B", "C") ≠ (("A", "B - C") : String × String) :=
  ⟨by decide, by decide⟩

/-- C9 (amended): the key is a function of the (name, branch) pair — rows
with identical name and branch always collapse to one key — and equal keys
imply identical pairs whenever the two names have equal length; distinct
pairs CAN collide when the separator " - " appears at the junction (see the
counterexample). -/
theorem make_key_pair (n b n' b' : String) :
    ((n, b) = (n', b') → make_key n b = make_key n' b') ∧
    (make_key n b = make_key n' b' → n.length = n'.length → (n, b) = (n', b')) := by
  constructor
  · intro h
    rw [Prod.mk.injEq] at h
    rw [h.1, h.2]
  · intro hkey hlen
    have hd : n.data ++ (" - ".data ++ b.data) = n'.data ++ (" - ".data ++ b'.data) := by
      have h0 := congrArg String.data hkey
      simpa [make_key, String.data_append, List.append_assoc] using h0
    have hlen' : n.data.length = n'.data.length := hlen
    obtain ⟨h1, h2⟩ := List.append_inj hd hlen'
    obtain ⟨-, h3⟩ := List.append_inj h2 rfl
    rw [Prod.mk.injEq]
    exact ⟨congrArg String.mk h1, congrArg String.mk h3⟩

/-- C9 witness: the amended equivalence at a concrete equal-length pair. -/
theorem make_key_pair_witness :
    (make_key "X" "Y" = make_key "X" "Y" ∧ ("X" : String).length = ("X" : String).length) ∧
    (("X", "Y") : String × String) = ("X", "Y") :=
  ⟨⟨rfl, rfl⟩, (make_key_pair "X" "Y" "X" "Y").2 rfl rfl⟩

/-- C10: parsed records are immutable under rendering: re-rendering the
session table is idempotent (a second render leaves every field of every
record unchanged, so repeated renders read the same parsed data), and a
table whose records are already parsed (date column a date or NaT, not a raw
string) is left entirely unchanged by a render. -/
theorem render_parse_dates_stable (parseDate : String → Option ℤ)
    (table : List StoredRecord) :
    render_parse_dates parseDate (render_parse_dates parseDate table)
      = render_parse_dates parseDate table ∧
    ((∀ r ∈ table, ∃ o, r.date = DateCell.parsed o) →
      render_parse_dates parseDate table = table) := by
  constructor
  · unfold render_parse_dates
    rw [List.map_map]
    apply List.map_congr_left
    intro r _
    cases r with
    | mk st e b d p => cases d <;> rfl
  · intro h
    unfold render_parse_dates
    conv_rhs => rw [← List.map_id table]
    apply List.map_congr_left
    intro r hr
    obtain ⟨o, ho⟩ := h r hr
    cases r with
    | mk st e b d p =>
      simp only at ho
      rw [ho]
      rfl

/-- C10 witness: a concrete already-parsed table is unchanged by a render. -/
theorem render_parse_dates_stable_witness :
    (∀ r ∈ [StoredRecord.mk "Asignado" "A" "B" (DateCell.parsed (some 3)) 4],
      ∃ o, r.date = DateCell.parsed o) ∧
    render_parse_dates (fun _ => none)
      [StoredRecord.mk "Asignado" "A" "B" (DateCell.parsed (some 3)) 4]
      = [StoredRecord.mk "Asignado" "A" "B" (DateCell.parsed (some 3)) 4] :=
  ⟨fun r hr => ⟨some 3, by rcases List.mem_singleton.mp hr with rfl; rfl⟩,
   (render_parse_dates_stable _ _).2
     (fun r hr => ⟨some 3, by rcases List.mem_singleton.mp hr with rfl; rfl⟩)⟩

end App
